import Mathlib

/-!
Verification development for the resilient fetch-and-archive pipeline of
`src/assets/image_scraper.py` (functions `_download_file`,
`download_cw3e_westwrf_snow`, and the site-selection stage of `main`).

The Python code is shallowly embedded as follows:
- the network is an oracle `net : Nat → GetResult` giving, for each attempt
  index of a `_download_file` call, either an HTTP response (status code,
  declared Content-Type header — the empty string when absent — and a body
  of bytes modelled as `List Nat`) or a transport-level error
  (`requests.RequestException` raised by `session.get`, which subsumes
  connection errors and timeouts);
- the filesystem is an explicit state `FS`: an association list of files
  (path to byte content) plus a list of existing directories; paths are
  lists of components.  `write_bytes` is `FS.writeFile` (create or
  overwrite), `mkdir(parents=True, exist_ok=True)` is `FS.mkdirAll`.
  Filesystem writes are modelled as infallible (the script has no special
  handling for write errors: any such exception flows into the same
  per-site `raise` path).  `os.chmod` is not modelled — no claim concerns
  permissions;
- `datetime.now().strftime("%Y%m%d_%H%M%S")`, evaluated once at line 131
  before the per-site loop, is the explicit parameter `ts` of
  `download_cw3e_westwrf_snow`;
- `time.sleep(sleep_time)` is recorded in an explicit list of slept
  durations (seconds, as `Nat`), returned alongside the result.
-/

namespace ImageScraper

/-- A filesystem path, as a list of components. -/
abbrev FilePath := List String

/-- The filesystem state: files (path to byte content) and directories. -/
structure FS where
  files : List (FilePath × List Nat)
  dirs : List FilePath
deriving DecidableEq

/-- The empty filesystem. -/
def emptyFS : FS := ⟨[], []⟩

/-- Create-or-overwrite write on the file association list
(`Path.write_bytes`). -/
def writeFileList : List (FilePath × List Nat) → FilePath → List Nat → List (FilePath × List Nat)
  | [], p, b => [(p, b)]
  | q :: rest, p, b => if q.1 = p then (p, b) :: rest else q :: writeFileList rest p b

/-- Look up the content of a file (`Path.read_bytes`), returning `none`
when the file does not exist. -/
def lookupFileList : List (FilePath × List Nat) → FilePath → Option (List Nat)
  | [], _ => none
  | q :: rest, p => if q.1 = p then some q.2 else lookupFileList rest p

/-- Write a file into the filesystem state. -/
def FS.writeFile (fs : FS) (p : FilePath) (b : List Nat) : FS :=
  ⟨writeFileList fs.files p b, fs.dirs⟩

/-- Look up a file in the filesystem state. -/
def FS.lookupFile (fs : FS) (p : FilePath) : Option (List Nat) :=
  lookupFileList fs.files p

/-- All nonempty ancestors of a path, shortest first (the directories that
`mkdir(parents=True)` ensures exist). -/
def parentsOf (p : FilePath) : List FilePath :=
  (List.range p.length).map (fun i => p.take (i + 1))

/-- Add a directory if not already present (`exist_ok=True`). -/
def addDir (ds : List FilePath) (d : FilePath) : List FilePath :=
  if d ∈ ds then ds else ds ++ [d]

/-- `path.mkdir(parents=True, exist_ok=True)`: ensure the directory and all
its ancestors exist.  Touches only the directory component of the state. -/
def FS.mkdirAll (fs : FS) (p : FilePath) : FS :=
  ⟨fs.files, (parentsOf p).foldl addDir fs.dirs⟩

/-- Outcome of one `session.get(url, timeout=timeout)` call: a response, or
a transport-level `requests.RequestException` (connection error, timeout). -/
inductive GetResult where
  | response (statusCode : Nat) (contentType : String) (body : List Nat)
  | transportError (msg : String)
deriving DecidableEq

/-- The exceptions `_download_file` can raise, classified.
`httpStatus` is the `requests.RequestException` raised at line 68 for a
non-200 status; `invalidContentType` is the `ValueError` raised at line 74;
`transport` is a `requests.RequestException` escaping `session.get`;
`raisedNone` models `raise None` (a `TypeError` in Python), reachable only
when `retries = 0` so that the loop body never runs and `last_exception`
is still `None`. -/
inductive FetchError where
  | httpStatus (code : Nat) (url : String)
  | invalidContentType (ct : String) (url : String)
  | transport (msg : String)
  | raisedNone
deriving DecidableEq

deriving instance DecidableEq for Except

/-- The `startswith` check applied to the Content-Type header at line 73,
generically: does `s` start with `p`? -/
def strStartsWith (s p : String) : Bool := p.toList.isPrefixOf s.toList

/-- Classification of a single attempt (lines 64-76 of the source): a
transport error is retryable; status different from 200 raises
`RequestException`; status 200 with a Content-Type not starting in
`image/` raises `ValueError`; otherwise the attempt succeeds with the
response body. -/
def attemptOutcome (url : String) (g : GetResult) : Except FetchError (List Nat) :=
  match g with
  | .transportError m => .error (.transport m)
  | .response code ct body =>
    if code ≠ 200 then .error (.httpStatus code url)
    else if strStartsWith ct "image/" = false then .error (.invalidContentType ct url)
    else .ok body

/-- Is the attempt outcome an error? -/
def isErr : Except FetchError (List Nat) → Bool
  | .error _ => true
  | .ok _ => false

/-- Extract the error of a failed attempt (junk value `raisedNone` on a
successful one; only used under an all-attempts-fail hypothesis). -/
def errOf : Except FetchError (List Nat) → FetchError
  | .error e => e
  | .ok _ => .raisedNone

/-- The durations slept by `n` consecutive failed attempts starting at
attempt index `attempt`: `2 ^ attempt, 2 ^ (attempt+1), ...` (line 93:
`sleep_time = 2 ** attempt`). -/
def backoffSleeps (attempt : Nat) : Nat → List Nat
  | 0 => []
  | n + 1 => 2 ^ attempt :: backoffSleeps (attempt + 1) n

/-- The retry loop of `_download_file` (lines 61-98), recursing on the
number of remaining loop iterations.  `attempt` is the 0-based attempt
index of the source; `remaining = retries - attempt`.  Returns the result
(body on success, last exception on exhaustion), the list of slept
durations, and the number of GET attempts issued.  On a failed attempt
other than the last (`attempt < retries - 1`), sleep `2 ^ attempt` seconds
and retry; on the last, fall out of the loop and raise the last exception.
The `remaining = 0` case is reached only when `_download_file` is called
with `retries = 0` (empty `range`), where Python executes `raise None`. -/
def _download_file_go (url : String) (net : Nat → GetResult) :
    Nat → Nat → List Nat → (Except FetchError (List Nat)) × List Nat × Nat
  | attempt, 0, sleeps => (.error .raisedNone, sleeps, attempt)
  | attempt, 1, sleeps =>
      match attemptOutcome url (net attempt) with
      | .ok body => (.ok body, sleeps, attempt + 1)
      | .error e => (.error e, sleeps, attempt + 1)
  | attempt, r + 2, sleeps =>
      match attemptOutcome url (net attempt) with
      | .ok body => (.ok body, sleeps, attempt + 1)
      | .error _ => _download_file_go url net (attempt + 1) (r + 1) (sleeps ++ [2 ^ attempt])

/-- `_download_file(url, dest_path, session, timeout, retries)` (lines
36-98).  The successful attempt creates the parent directories of
`dest_path` and writes the body to it (lines 79-80) before
returning; on exhaustion the filesystem is left untouched and the last
exception is raised.  Returns (result, filesystem, sleeps, attempts). -/
def _download_file (url : String) (net : Nat → GetResult) (dest : FilePath)
    (retries : Nat) (fs : FS) : (Except FetchError Unit) × FS × List Nat × Nat :=
  match _download_file_go url net 0 retries [] with
  | (.ok body, sleeps, attempts) =>
      (.ok (), (fs.mkdirAll dest.dropLast).writeFile dest body, sleeps, attempts)
  | (.error e, sleeps, attempts) => (.error e, fs, sleeps, attempts)

/-- `BASE_URL` (line 25 of the source). -/
def BASE_URL : String := "https://cw3e.ucsd.edu/images/wwrf/images/ensemble/"

/-- The `SITES` table (lines 26-33), as an insertion-ordered association
list (Python dicts preserve insertion order). -/
def SITES : List (String × String) :=
  [("paradis", "West-WRF_3hrSnow_Meteogram_Panel_MRNP.png"),
   ("stevens", "West-WRF_3hrSnow_Meteogram_Panel_STP.png"),
   ("crystal", "West-WRF_3hrSnow_Meteogram_Panel_CMP.png"),
   ("snoqualmie", "West-WRF_3hrSnow_Meteogram_Panel_SNQ.png"),
   ("baker", "West-WRF_3hrSnow_Meteogram_Panel_MTB.png"),
   ("white", "West-WRF_3hrSnow_Meteogram_Panel_WHP.png")]

/-- Split a character list at its LAST `'.'`: `some (before, following)`,
or `none` when no dot occurs.  This is `filename.rsplit('.', 1)` (lines
149-150). -/
def splitLastDot : List Char → Option (List Char × List Char)
  | [] => none
  | c :: cs =>
    match splitLastDot cs with
    | some (b, e) => some (c :: b, e)
    | none => if c = '.' then some ([], cs) else none

/-- `base_name = filename.rsplit('.', 1)[0]` (line 149): everything before
the last dot, or the whole filename when it has no dot. -/
def base_name (filename : String) : String :=
  match splitLastDot filename.toList with
  | some (b, _) => String.mk b
  | none => filename

/-- `extension = filename.rsplit('.', 1)[1] if '.' in filename else 'png'`
(line 150). -/
def extension (filename : String) : String :=
  match splitLastDot filename.toList with
  | some (_, e) => String.mk e
  | none => "png"

/-- `timestamped_filename = f"..."` (line 151): the archive filename, with
the run timestamp inserted between the base name and the extension. -/
def timestamped_filename (filename ts : String) : String :=
  base_name filename ++ "_" ++ ts ++ "." ++ extension filename

/-- The per-site body of the loop of `download_cw3e_westwrf_snow` (lines
134-168): build the URL, create the site directory, call `_download_file`
on the canonical path, and on success copy the canonical file bytes to
the timestamped archive path.  Returns the canonical path or the
exception, the resulting filesystem, and the sleeps performed.  The `net`
oracle is indexed by URL. -/
def processSite (net : String → Nat → GetResult) (root : FilePath) (ts : String)
    (retries : Nat) (site filename : String) (fs : FS) :
    (Except FetchError FilePath) × FS × List Nat :=
  let url := BASE_URL ++ filename
  let siteDir := root ++ [site]
  let fs1 := fs.mkdirAll siteDir
  let canonical := siteDir ++ [filename]
  match _download_file url (net url) canonical retries fs1 with
  | (.ok (), fs2, sleeps, _) =>
      let body := (fs2.lookupFile canonical).getD []
      let archPath := siteDir ++ [timestamped_filename filename ts]
      let fs3 := fs2.writeFile archPath body
      (.ok canonical, fs3, sleeps)
  | (.error e, fs2, sleeps, _) => (.error e, fs2, sleeps)

/-- Result of a `download_cw3e_westwrf_snow` run: either a normal return
with the results dict (site name to canonical path, insertion order) and
the final filesystem, or the `Exception` raised at line 168, which carries
the name of the failed site in its message, chained to the underlying
error. -/
inductive RunResult where
  | ok (results : List (String × FilePath)) (fs : FS)
  | raised (site : String) (e : FetchError) (fs : FS)
deriving DecidableEq

/-- Did the run return normally? -/
def RunResult.isOk : RunResult → Bool
  | .ok _ _ => true
  | .raised _ _ _ => false

/-- The results dict of a normal return (junk `[]` on a raise). -/
def RunResult.resultsOf : RunResult → List (String × FilePath)
  | .ok r _ => r
  | .raised _ _ _ => []

/-- The site named by the raised exception (junk `""` on a normal
return). -/
def RunResult.siteOf : RunResult → String
  | .ok _ _ => ""
  | .raised s _ _ => s

/-- The filesystem state when the run ends. -/
def RunResult.fsOf : RunResult → FS
  | .ok _ fs => fs
  | .raised _ _ fs => fs

/-- The `for site, filename in sites.items()` loop of
`download_cw3e_westwrf_snow` (lines 134-168), accumulating the `results`
dict.  A failing site raises immediately (line 168); remaining sites are
not processed. -/
def processSites (net : String → Nat → GetResult) (root : FilePath) (ts : String)
    (retries : Nat) : List (String × String) → FS → List (String × FilePath) → RunResult
  | [], fs, acc => .ok acc fs
  | (site, filename) :: rest, fs, acc =>
    match processSite net root ts retries site filename fs with
    | (.ok canonical, fs2, _) =>
        processSites net root ts retries rest fs2 (acc ++ [(site, canonical)])
    | (.error e, fs2, _) => .raised site e fs2

/-- `download_cw3e_westwrf_snow(sites, target_root)` (lines 101-174): the
timestamp `ts` is computed once (line 131) before the loop; every site is
fetched with the default `retries = 3` of `_download_file`. -/
def download_cw3e_westwrf_snow (net : String → Nat → GetResult)
    (sites : List (String × String)) (root : FilePath) (ts : String) (fs : FS) : RunResult :=
  processSites net root ts 3 sites fs []

/-- Does some attempt among the first `retries` succeed for this URL? -/
def succeedsWithin (url : String) (g : Nat → GetResult) (retries : Nat) : Bool :=
  (List.range retries).any (fun i => !(isErr (attemptOutcome url (g i))))

/-- One step of the dict comprehension at line 222:
`sites_dict = ...SITES[name] for name in site_names if name in SITES`.
An invalid name leaves the dict unchanged; a valid repeated name
overwrites in place (insertion order is kept). -/
def sites_dict_step (d : List (String × String)) (name : String) : List (String × String) :=
  match SITES.find? (fun p => p.1 = name) with
  | some p =>
      if d.any (fun q => q.1 = name) then d.map (fun q => if q.1 = name then (name, p.2) else q)
      else d ++ [(name, p.2)]
  | none => d

/-- The dict comprehension at line 222, over the stripped site names. -/
def sites_dict (site_names : List String) : List (String × String) :=
  site_names.foldl sites_dict_step []

/-- `invalid_sites` (line 225): the supplied names not present in
`SITES`. -/
def invalid_sites (site_names : List String) : List String :=
  site_names.filter (fun n => (SITES.find? (fun p => p.1 = n)).isNone)

/-- Outcome of the site-selection stage of `main` (lines 218-232):
`configError` is the `return 1` at line 232 ("No valid sites specified");
otherwise the run proceeds with the filtered dict. -/
inductive MainSitesResult where
  | configError
  | useSites (d : List (String × String))
deriving DecidableEq

/-- The site-selection stage of `main` for a supplied `--sites` list
(lines 220-232): build the filtered dict, warn about invalid names, and
fail with a configuration error exactly when the dict is empty. -/
def main_sites_stage (site_names : List String) : MainSitesResult :=
  let d := sites_dict site_names
  if d.isEmpty then .configError else .useSites d

/-! ## Filesystem lemmas -/

theorem lookupFileList_writeFileList (l : List (FilePath × List Nat)) (p q : FilePath)
    (b : List Nat) :
    lookupFileList (writeFileList l p b) q = if q = p then some b else lookupFileList l q := by
  induction l with
  | nil =>
    by_cases h : q = p
    · subst h; simp [writeFileList, lookupFileList]
    · simp [writeFileList, lookupFileList, h, Ne.symm h]
  | cons r rest ih =>
    by_cases h1 : r.1 = p
    · by_cases h2 : q = p
      · subst h2; simp [writeFileList, lookupFileList, h1]
      · simp [writeFileList, lookupFileList, h1, h2, Ne.symm h2]
    · by_cases h2 : q = p
      · subst h2
        simp [writeFileList, lookupFileList, h1, ih]
      · simp [writeFileList, lookupFileList, h1, ih, h2]

theorem FS.lookupFile_writeFile (fs : FS) (p q : FilePath) (b : List Nat) :
    (fs.writeFile p b).lookupFile q = if q = p then some b else fs.lookupFile q :=
  lookupFileList_writeFileList fs.files p q b

theorem FS.lookupFile_writeFile_self (fs : FS) (p : FilePath) (b : List Nat) :
    (fs.writeFile p b).lookupFile p = some b := by
  rw [FS.lookupFile_writeFile]; simp

theorem FS.lookupFile_writeFile_isSome (fs : FS) (p q : FilePath) (b : List Nat)
    (h : (fs.lookupFile q).isSome = true) : ((fs.writeFile p b).lookupFile q).isSome = true := by
  rw [FS.lookupFile_writeFile]
  by_cases hqp : q = p <;> simp [hqp, h]

theorem FS.lookupFile_mkdirAll (fs : FS) (p q : FilePath) :
    (fs.mkdirAll p).lookupFile q = fs.lookupFile q := rfl

theorem FS.files_mkdirAll (fs : FS) (p : FilePath) : (fs.mkdirAll p).files = fs.files := rfl

/-! ## Retry-loop lemmas for `_download_file` -/

theorem go_all_fail (url : String) (net : Nat → GetResult) :
    ∀ rem attempt sleeps,
      (∀ i, attempt ≤ i → i < attempt + rem + 1 → isErr (attemptOutcome url (net i)) = true) →
      _download_file_go url net attempt (rem + 1) sleeps =
        (.error (errOf (attemptOutcome url (net (attempt + rem)))),
         sleeps ++ backoffSleeps attempt rem, attempt + rem + 1) := by
  intro rem
  induction rem with
  | zero =>
    intro attempt sleeps h
    have h0 := h attempt (Nat.le_refl _) (by omega)
    cases hout : attemptOutcome url (net attempt) with
    | ok body => rw [hout] at h0; simp [isErr] at h0
    | error e => simp [_download_file_go, hout, errOf, backoffSleeps]
  | succ r ih =>
    intro attempt sleeps h
    have h0 := h attempt (Nat.le_refl _) (by omega)
    cases hout : attemptOutcome url (net attempt) with
    | ok body => rw [hout] at h0; simp [isErr] at h0
    | error e =>
      have step : _download_file_go url net attempt (r + 1 + 1) sleeps =
          _download_file_go url net (attempt + 1) (r + 1) (sleeps ++ [2 ^ attempt]) := by
        show _download_file_go url net attempt (r + 2) sleeps = _
        simp [_download_file_go, hout]
      rw [step, ih (attempt + 1) (sleeps ++ [2 ^ attempt])
        (by intro i h1 h2; exact h i (by omega) (by omega))]
      have e1 : attempt + 1 + r = attempt + (r + 1) := by omega
      rw [e1]
      simp [backoffSleeps, List.append_assoc]

theorem go_first_success (url : String) (net : Nat → GetResult) :
    ∀ d attempt rem sleeps body,
      (∀ i, attempt ≤ i → i < attempt + d → isErr (attemptOutcome url (net i)) = true) →
      attemptOutcome url (net (attempt + d)) = .ok body →
      d < rem →
      _download_file_go url net attempt rem sleeps =
        (.ok body, sleeps ++ backoffSleeps attempt d, attempt + d + 1) := by
  intro d
  induction d with
  | zero =>
    intro attempt rem sleeps body hfail hok hlt
    rw [Nat.add_zero] at hok
    match rem, hlt with
    | 1, _ => simp [_download_file_go, hok, backoffSleeps]
    | r + 2, _ => simp [_download_file_go, hok, backoffSleeps]
  | succ dd ih =>
    intro attempt rem sleeps body hfail hok hlt
    have h0 := hfail attempt (Nat.le_refl _) (by omega)
    cases hout : attemptOutcome url (net attempt) with
    | ok b0 => rw [hout] at h0; simp [isErr] at h0
    | error e =>
      match rem, hlt with
      | r + 2, _ =>
        have step : _download_file_go url net attempt (r + 2) sleeps =
            _download_file_go url net (attempt + 1) (r + 1) (sleeps ++ [2 ^ attempt]) := by
          simp [_download_file_go, hout]
        have hok' : attemptOutcome url (net (attempt + 1 + dd)) = .ok body := by
          rw [show attempt + 1 + dd = attempt + (dd + 1) from by omega]; exact hok
        rw [step, ih (attempt + 1) (r + 1) (sleeps ++ [2 ^ attempt]) body
          (by intro i h1 h2; exact hfail i (by omega) (by omega)) hok' (by omega)]
        have e1 : attempt + 1 + dd = attempt + (dd + 1) := by omega
        rw [e1]
        simp [backoffSleeps, List.append_assoc]

theorem download_file_all_fail (url : String) (net : Nat → GetResult) (dest : FilePath)
    (retries : Nat) (fs : FS) (h0 : 0 < retries)
    (h : ∀ i, i < retries → isErr (attemptOutcome url (net i)) = true) :
    _download_file url net dest retries fs =
      (.error (errOf (attemptOutcome url (net (retries - 1)))), fs,
       backoffSleeps 0 (retries - 1), retries) := by
  obtain ⟨rem, rfl⟩ : ∃ rem, retries = rem + 1 := ⟨retries - 1, by omega⟩
  have hgo := go_all_fail url net rem 0 [] (by intro i h1 h2; exact h i (by omega))
  simp only [Nat.zero_add, List.nil_append] at hgo
  unfold _download_file
  rw [hgo]
  simp

theorem download_file_first_success (url : String) (net : Nat → GetResult) (dest : FilePath)
    (retries : Nat) (fs : FS) (d : Nat) (body : List Nat)
    (hd : d < retries)
    (h : ∀ i, i < d → isErr (attemptOutcome url (net i)) = true)
    (hok : attemptOutcome url (net d) = .ok body) :
    _download_file url net dest retries fs =
      (.ok (), (fs.mkdirAll dest.dropLast).writeFile dest body, backoffSleeps 0 d, d + 1) := by
  have hgo := go_first_success url net d 0 retries [] body
    (by intro i h1 h2; exact h i (by omega)) (by simpa using hok) hd
  simp only [Nat.zero_add, List.nil_append] at hgo
  unfold _download_file
  rw [hgo]

/-! ## Helpers about `succeedsWithin` -/

theorem all_fail_of_not_succeeds (url : String) (g : Nat → GetResult) (retries : Nat)
    (h : succeedsWithin url g retries = false) :
    ∀ i, i < retries → isErr (attemptOutcome url (g i)) = true := by
  intro i hi
  by_contra hne
  have hfalse : isErr (attemptOutcome url (g i)) = false := by
    cases hb : isErr (attemptOutcome url (g i)) with
    | true => exact absurd hb hne
    | false => rfl
  have htrue : succeedsWithin url g retries = true := by
    unfold succeedsWithin
    rw [List.any_eq_true]
    exact ⟨i, List.mem_range.mpr hi, by simp [hfalse]⟩
  rw [htrue] at h
  cases h

theorem exists_first_success (url : String) (g : Nat → GetResult) (retries : Nat)
    (h : succeedsWithin url g retries = true) :
    ∃ j body, j < retries ∧ (∀ i, i < j → isErr (attemptOutcome url (g i)) = true) ∧
      attemptOutcome url (g j) = .ok body := by
  unfold succeedsWithin at h
  rw [List.any_eq_true] at h
  obtain ⟨i0, hmem, hi0⟩ := h
  rw [List.mem_range] at hmem
  have hi0f : isErr (attemptOutcome url (g i0)) = false := by
    cases hb : isErr (attemptOutcome url (g i0))
    · rfl
    · rw [hb] at hi0; simp at hi0
  have hex : ∃ j, isErr (attemptOutcome url (g j)) = false := ⟨i0, hi0f⟩
  have hj : isErr (attemptOutcome url (g (Nat.find hex))) = false := Nat.find_spec hex
  have hjle : Nat.find hex ≤ i0 := Nat.find_min' hex hi0f
  have hmin : ∀ i, i < Nat.find hex → isErr (attemptOutcome url (g i)) = true := by
    intro i hi
    have hnot := Nat.find_min hex hi
    cases hb : isErr (attemptOutcome url (g i)) with
    | true => rfl
    | false => exact absurd hb hnot
  cases hout : attemptOutcome url (g (Nat.find hex)) with
  | error e => rw [hout] at hj; simp [isErr] at hj
  | ok body => exact ⟨Nat.find hex, body, by omega, hmin, hout⟩

theorem succeeds_of_not_all_fail (url : String) (g : Nat → GetResult) (retries : Nat)
    (h : ¬ ∀ i, i < retries → isErr (attemptOutcome url (g i)) = true) :
    succeedsWithin url g retries = true := by
  push_neg at h
  obtain ⟨i, hi, hne⟩ := h
  have hif : isErr (attemptOutcome url (g i)) = false := by
    cases hb : isErr (attemptOutcome url (g i)) with
    | true => exact absurd hb hne
    | false => rfl
  unfold succeedsWithin
  rw [List.any_eq_true]
  exact ⟨i, List.mem_range.mpr hi, by simp [hif]⟩

/-! ## Backoff schedule lemmas -/

theorem backoffSleeps_length : ∀ n attempt, (backoffSleeps attempt n).length = n := by
  intro n
  induction n with
  | zero => intro attempt; rfl
  | succ m ih => intro attempt; simp [backoffSleeps, ih]

theorem backoffSleeps_get :
    ∀ n attempt i (h : i < (backoffSleeps attempt n).length),
      (backoffSleeps attempt n).get ⟨i, h⟩ = 2 ^ (attempt + i) := by
  intro n
  induction n with
  | zero => intro attempt i h; simp [backoffSleeps] at h
  | succ m ih =>
    intro attempt i h
    cases i with
    | zero => simp [backoffSleeps]
    | succ k =>
      have hk : k < (backoffSleeps (attempt + 1) m).length := by
        simp [backoffSleeps] at h
        simpa [backoffSleeps_length] using h
      have := ih (attempt + 1) k hk
      simp only [backoffSleeps, List.get_cons_succ]
      rw [this]
      congr 1
      omega

/-! ## Per-site step lemmas -/

theorem processSite_fail (net : String → Nat → GetResult) (root : FilePath) (ts : String)
    (retries : Nat) (site filename : String) (fs : FS) (h0 : 0 < retries)
    (h : ∀ i, i < retries →
      isErr (attemptOutcome (BASE_URL ++ filename) (net (BASE_URL ++ filename) i)) = true) :
    processSite net root ts retries site filename fs =
      (.error (errOf (attemptOutcome (BASE_URL ++ filename)
          (net (BASE_URL ++ filename) (retries - 1)))),
       fs.mkdirAll (root ++ [site]), backoffSleeps 0 (retries - 1)) := by
  simp only [processSite]
  rw [download_file_all_fail _ _ _ _ _ h0 h]

theorem processSite_success (net : String → Nat → GetResult) (root : FilePath) (ts : String)
    (retries : Nat) (site filename : String) (fs : FS)
    (h : succeedsWithin (BASE_URL ++ filename) (net (BASE_URL ++ filename)) retries = true) :
    ∃ body fs3 sl,
      processSite net root ts retries site filename fs =
        (.ok (root ++ [site, filename]), fs3, sl) ∧
      fs3.lookupFile (root ++ [site, timestamped_filename filename ts]) = some body ∧
      (∀ q, (fs.lookupFile q).isSome = true → (fs3.lookupFile q).isSome = true) := by
  obtain ⟨j, body, hj, hmin, hok⟩ := exists_first_success _ _ _ h
  simp only [processSite]
  rw [download_file_first_success _ _ _ _ _ j body hj hmin hok]
  dsimp only
  rw [FS.lookupFile_writeFile_self]
  simp only [Option.getD_some]
  refine ⟨body,
    (((fs.mkdirAll (root ++ [site])).mkdirAll
        (List.dropLast (root ++ [site] ++ [filename]))).writeFile
      (root ++ [site] ++ [filename]) body).writeFile
      (root ++ [site] ++ [timestamped_filename filename ts]) body,
    backoffSleeps 0 j, ?_, ?_, ?_⟩
  · simp [List.append_assoc]
  · rw [show root ++ [site, timestamped_filename filename ts] =
        root ++ [site] ++ [timestamped_filename filename ts] from by simp]
    exact FS.lookupFile_writeFile_self _ _ _
  · intro q hq
    apply FS.lookupFile_writeFile_isSome
    apply FS.lookupFile_writeFile_isSome
    rw [FS.lookupFile_mkdirAll, FS.lookupFile_mkdirAll]
    exact hq

/-! ## Orchestrator loop lemmas -/

theorem processSites_ok_of_all_succeed (net : String → Nat → GetResult) (root : FilePath)
    (ts : String) (retries : Nat) :
    ∀ (sites : List (String × String)) (fs : FS) (acc : List (String × FilePath)),
      (∀ p ∈ sites, succeedsWithin (BASE_URL ++ p.2) (net (BASE_URL ++ p.2)) retries = true) →
      ∃ fs2, processSites net root ts retries sites fs acc =
          .ok (acc ++ sites.map (fun p => (p.1, root ++ [p.1, p.2]))) fs2 ∧
        (∀ q, (fs.lookupFile q).isSome = true → (fs2.lookupFile q).isSome = true) ∧
        (∀ p ∈ sites,
          (fs2.lookupFile (root ++ [p.1, timestamped_filename p.2 ts])).isSome = true) := by
  intro sites
  induction sites with
  | nil =>
    intro fs acc h
    exact ⟨fs, by simp [processSites], fun q hq => hq, by simp⟩
  | cons hd rest ih =>
    intro fs acc h
    obtain ⟨s, f⟩ := hd
    obtain ⟨body, fs3, sl, heq, harch, hmono⟩ :=
      processSite_success net root ts retries s f fs (h (s, f) (List.mem_cons_self _ _))
    obtain ⟨fs2, heq2, hmono2, harch2⟩ := ih fs3 (acc ++ [(s, root ++ [s, f])])
      (fun p hp => h p (List.mem_cons_of_mem _ hp))
    refine ⟨fs2, ?_, ?_, ?_⟩
    · simp only [processSites, heq]
      rw [heq2]
      simp
    · intro q hq
      exact hmono2 q (hmono q hq)
    · intro p hp
      rcases List.mem_cons.mp hp with hcase | hcase
      · subst hcase
        exact hmono2 _ (by rw [harch]; rfl)
      · exact harch2 p hcase

theorem processSites_ok_inv (net : String → Nat → GetResult) (root : FilePath)
    (ts : String) (retries : Nat) (h0 : 0 < retries) :
    ∀ (sites : List (String × String)) (fs : FS) (acc : List (String × FilePath))
      (res : List (String × FilePath)) (fs2 : FS),
      processSites net root ts retries sites fs acc = .ok res fs2 →
      (∀ p ∈ sites, succeedsWithin (BASE_URL ++ p.2) (net (BASE_URL ++ p.2)) retries = true) ∧
      res = acc ++ sites.map (fun p => (p.1, root ++ [p.1, p.2])) := by
  intro sites
  induction sites with
  | nil =>
    intro fs acc res fs2 h
    simp only [processSites] at h
    refine ⟨by simp, ?_⟩
    cases h
    simp
  | cons hd rest ih =>
    intro fs acc res fs2 h
    obtain ⟨s, f⟩ := hd
    by_cases hs : succeedsWithin (BASE_URL ++ f) (net (BASE_URL ++ f)) retries = true
    · obtain ⟨body, fs3, sl, heq, _, _⟩ := processSite_success net root ts retries s f fs hs
      simp only [processSites, heq] at h
      obtain ⟨hall, hres⟩ := ih fs3 _ res fs2 h
      refine ⟨?_, ?_⟩
      · intro p hp
        rcases List.mem_cons.mp hp with hcase | hcase
        · subst hcase; exact hs
        · exact hall p hcase
      · rw [hres]; simp
    · have hsf : succeedsWithin (BASE_URL ++ f) (net (BASE_URL ++ f)) retries = false := by
        cases hb : succeedsWithin (BASE_URL ++ f) (net (BASE_URL ++ f)) retries
        · rfl
        · exact absurd hb hs
      have hall := all_fail_of_not_succeeds _ _ _ hsf
      rw [show ((s, f) :: rest : List (String × String)) = (s, f) :: rest from rfl] at h
      simp only [processSites, processSite_fail net root ts retries s f fs h0 hall] at h
      cases h

theorem processSites_raised_inv (net : String → Nat → GetResult) (root : FilePath)
    (ts : String) (retries : Nat) (h0 : 0 < retries) :
    ∀ (sites : List (String × String)) (fs : FS) (acc : List (String × FilePath))
      (s : String) (e : FetchError) (fs2 : FS),
      processSites net root ts retries sites fs acc = .raised s e fs2 →
      ∃ f, (s, f) ∈ sites ∧
        succeedsWithin (BASE_URL ++ f) (net (BASE_URL ++ f)) retries = false := by
  intro sites
  induction sites with
  | nil =>
    intro fs acc s e fs2 h
    simp only [processSites] at h
    cases h
  | cons hd rest ih =>
    intro fs acc s e fs2 h
    obtain ⟨s1, f1⟩ := hd
    by_cases hs : succeedsWithin (BASE_URL ++ f1) (net (BASE_URL ++ f1)) retries = true
    · obtain ⟨body, fs3, sl, heq, _, _⟩ := processSite_success net root ts retries s1 f1 fs hs
      simp only [processSites, heq] at h
      obtain ⟨f, hf, hfail⟩ := ih fs3 _ s e fs2 h
      exact ⟨f, List.mem_cons_of_mem _ hf, hfail⟩
    · have hsf : succeedsWithin (BASE_URL ++ f1) (net (BASE_URL ++ f1)) retries = false := by
        cases hb : succeedsWithin (BASE_URL ++ f1) (net (BASE_URL ++ f1)) retries
        · rfl
        · exact absurd hb hs
      have hall := all_fail_of_not_succeeds _ _ _ hsf
      simp only [processSites, processSite_fail net root ts retries s1 f1 fs h0 hall] at h
      obtain ⟨hs1, he, hfs⟩ := RunResult.raised.inj h
      exact ⟨f1, by rw [← hs1]; exact List.mem_cons_self _ _, hsf⟩

theorem processSites_abort (net : String → Nat → GetResult) (root : FilePath)
    (ts : String) (retries : Nat) (h0 : 0 < retries) :
    ∀ (pre : List (String × String)) (s f : String) (post : List (String × String))
      (fs : FS) (acc : List (String × FilePath)),
      (∀ p ∈ pre, succeedsWithin (BASE_URL ++ p.2) (net (BASE_URL ++ p.2)) retries = true) →
      succeedsWithin (BASE_URL ++ f) (net (BASE_URL ++ f)) retries = false →
      ∃ e fs2,
        processSites net root ts retries (pre ++ (s, f) :: post) fs acc = .raised s e fs2 := by
  intro pre
  induction pre with
  | nil =>
    intro s f post fs acc hpre hf
    have hall := all_fail_of_not_succeeds _ _ _ hf
    refine ⟨errOf (attemptOutcome (BASE_URL ++ f) (net (BASE_URL ++ f) (retries - 1))),
      fs.mkdirAll (root ++ [s]), ?_⟩
    rw [List.nil_append]
    simp only [processSites, processSite_fail net root ts retries s f fs h0 hall]
  | cons hd rest ih =>
    intro s f post fs acc hpre hf
    obtain ⟨s1, f1⟩ := hd
    obtain ⟨body, fs3, sl, heq, _, _⟩ := processSite_success net root ts retries s1 f1 fs
      (hpre (s1, f1) (List.mem_cons_self _ _))
    obtain ⟨e, fs2, heq2⟩ := ih s f post fs3 (acc ++ [(s1, root ++ [s1, f1])])
      (fun p hp => hpre p (List.mem_cons_of_mem _ hp)) hf
    refine ⟨e, fs2, ?_⟩
    rw [List.cons_append]
    simp only [processSites, heq]
    exact heq2

/-! ## Concrete network oracles used by witnesses and counterexamples -/

/-- A network that always answers HTTP 500. -/
def netAlways500 : Nat → GetResult := fun _ => .response 500 "" []

/-- A network that always answers 200 with an image body. -/
def netOkPng : Nat → GetResult := fun _ => .response 200 "image/png" [7]

/-- An orchestrator-level network that always answers HTTP 500. -/
def onet500 : String → Nat → GetResult := fun _ _ => .response 500 "" []

/-- An orchestrator-level network that always answers 200 with an image
body. -/
def onetOk : String → Nat → GetResult := fun _ _ => .response 200 "image/png" [7]

/-- An orchestrator-level network on which exactly the URL of `a.png`
fails (with HTTP 500) and every other URL succeeds. -/
def onetFailA : String → Nat → GetResult := fun url _ =>
  if url = BASE_URL ++ "a.png" then .response 500 "" [] else .response 200 "image/png" [7]

/-! ## Claim C3 -/

/-- C3 (confirmed): for every url and positive `retries`, `_download_file`
issues at most `retries` total GET attempts (`retries = 3` means at most 3
tries), and when every attempt fails, the raised failure is the error of
the final attempt (index `retries - 1`) and exactly `retries` attempts
were made. -/
theorem c3_attempt_budget_and_last_error (url : String) (net : Nat → GetResult)
    (dest : FilePath) (retries : Nat) (fs : FS) (h0 : 0 < retries) :
    (_download_file url net dest retries fs).2.2.2 ≤ retries ∧
    ((∀ i, i < retries → isErr (attemptOutcome url (net i)) = true) →
      (_download_file url net dest retries fs).1 =
        .error (errOf (attemptOutcome url (net (retries - 1)))) ∧
      (_download_file url net dest retries fs).2.2.2 = retries) := by
  constructor
  · by_cases hall : ∀ i, i < retries → isErr (attemptOutcome url (net i)) = true
    · rw [download_file_all_fail url net dest retries fs h0 hall]
    · have hs := succeeds_of_not_all_fail url net retries hall
      obtain ⟨j, body, hj, hmin, hok⟩ := exists_first_success url net retries hs
      rw [download_file_first_success url net dest retries fs j body hj hmin hok]
      exact hj
  · intro hall
    rw [download_file_all_fail url net dest retries fs h0 hall]
    exact ⟨rfl, rfl⟩

/-- C3 witness: a concrete all-failing network with `retries = 3` makes at
most 3 attempts and reports the HTTP 500 error of the final attempt. -/
theorem c3_attempt_budget_and_last_error_witness :
    (_download_file "u" netAlways500 ["d"] 3 emptyFS).2.2.2 ≤ 3 ∧
    (_download_file "u" netAlways500 ["d"] 3 emptyFS).1 =
      .error (.httpStatus 500 "u") := by
  have h := c3_attempt_budget_and_last_error "u" netAlways500 ["d"] 3 emptyFS (by decide)
  refine ⟨h.1, ?_⟩
  have h2 := (h.2 (by decide)).1
  rw [h2]
  decide

/-! ## Claim C4 -/

/-- C4 (confirmed): an attempt succeeds if and only if it is an HTTP
response with status 200 whose declared Content-Type begins with `image/`;
a 200 response with a non-image Content-Type is classified as an
invalid-content-type failure (`ValueError`); and on the first successful
attempt `j` the retry loop of `_download_file` terminates immediately,
with exactly `j + 1` attempts issued. -/
theorem c4_success_iff_200_image (url : String) (net : Nat → GetResult) (dest : FilePath)
    (retries : Nat) (fs : FS) :
    (∀ g : GetResult, isErr (attemptOutcome url g) = false ↔
      ∃ ct body, g = .response 200 ct body ∧ strStartsWith ct "image/" = true) ∧
    (∀ ct body, strStartsWith ct "image/" = false →
      attemptOutcome url (.response 200 ct body) = .error (.invalidContentType ct url)) ∧
    (∀ j body, j < retries → (∀ i, i < j → isErr (attemptOutcome url (net i)) = true) →
      attemptOutcome url (net j) = .ok body →
      (_download_file url net dest retries fs).1 = .ok () ∧
      (_download_file url net dest retries fs).2.2.2 = j + 1) := by
  refine ⟨?_, ?_, ?_⟩
  · intro g
    cases g with
    | transportError m => simp [attemptOutcome, isErr]
    | response code ct body =>
      by_cases h200 : code = 200
      · subst h200
        by_cases hct : strStartsWith ct "image/" = true
        · simp [attemptOutcome, isErr, hct]
        · have hctf : strStartsWith ct "image/" = false := by
            cases hb : strStartsWith ct "image/"
            · rfl
            · exact absurd hb hct
          simp [attemptOutcome, isErr, hctf]
      · simp [attemptOutcome, isErr, h200]
  · intro ct body hct
    simp [attemptOutcome, hct]
  · intro j body hj hmin hok
    rw [download_file_first_success url net dest retries fs j body hj hmin hok]
    exact ⟨rfl, rfl⟩

/-- C4 witness: a network answering 200 with `image/png` on the first try
succeeds after exactly one attempt, and a 200 answer with `text/html` is
classified as an invalid-content-type failure. -/
theorem c4_success_iff_200_image_witness :
    (_download_file "u" netOkPng ["d"] 3 emptyFS).1 = .ok () ∧
    (_download_file "u" netOkPng ["d"] 3 emptyFS).2.2.2 = 1 ∧
    attemptOutcome "u" (.response 200 "text/html" []) =
      .error (.invalidContentType "text/html" "u") := by
  have h := c4_success_iff_200_image "u" netOkPng ["d"] 3 emptyFS
  have h3 := h.2.2 0 [7] (by decide) (by intro i hi; omega) (by decide)
  exact ⟨h3.1, h3.2, h.2.1 "text/html" [] (by decide)⟩

/-! ## Claim C6 -/

/-- C6 (confirmed): in `_download_file`, after every failed attempt except
the final one the loop sleeps `2 ^ attemptIndex` seconds: when all
`retries` attempts fail the recorded sleeps are exactly
`2 ^ 0, ..., 2 ^ (retries - 2)` (so `retries - 1` sleeps — no sleep after
the final failed attempt), each sleep is strictly longer than the
previous, and when the first success is at attempt index `j` exactly the
`j` failed attempts before it slept. -/
theorem c6_exponential_backoff (url : String) (net : Nat → GetResult) (dest : FilePath)
    (retries : Nat) (fs : FS) (h0 : 0 < retries) :
    ((∀ i, i < retries → isErr (attemptOutcome url (net i)) = true) →
      (_download_file url net dest retries fs).2.2.1 = backoffSleeps 0 (retries - 1) ∧
      (_download_file url net dest retries fs).2.2.1.length = retries - 1 ∧
      (∀ i (h1 : i < (_download_file url net dest retries fs).2.2.1.length),
        (_download_file url net dest retries fs).2.2.1.get ⟨i, h1⟩ = 2 ^ i) ∧
      (∀ i (h1 : i < (_download_file url net dest retries fs).2.2.1.length)
        (h2 : i + 1 < (_download_file url net dest retries fs).2.2.1.length),
        (_download_file url net dest retries fs).2.2.1.get ⟨i, h1⟩ <
          (_download_file url net dest retries fs).2.2.1.get ⟨i + 1, h2⟩)) ∧
    (∀ j body, j < retries → (∀ i, i < j → isErr (attemptOutcome url (net i)) = true) →
      attemptOutcome url (net j) = .ok body →
      (_download_file url net dest retries fs).2.2.1 = backoffSleeps 0 j) := by
  constructor
  · intro hall
    rw [download_file_all_fail url net dest retries fs h0 hall]
    refine ⟨rfl, backoffSleeps_length _ _, ?_, ?_⟩
    · intro i h1
      rw [backoffSleeps_get]
      simp
    · intro i h1 h2
      rw [backoffSleeps_get, backoffSleeps_get]
      simp only [Nat.zero_add]
      exact Nat.pow_lt_pow_right (by omega) (by omega)
  · intro j body hj hmin hok
    rw [download_file_first_success url net dest retries fs j body hj hmin hok]

/-- C6 witness: with an all-failing network and `retries = 3`, the sleeps
are `[1, 2]` (that is, `2 ^ 0` then `2 ^ 1`), two sleeps for three
attempts. -/
theorem c6_exponential_backoff_witness :
    (_download_file "u" netAlways500 ["d"] 3 emptyFS).2.2.1 = backoffSleeps 0 2 ∧
    (_download_file "u" netAlways500 ["d"] 3 emptyFS).2.2.1.length = 2 := by
  have h := (c6_exponential_backoff "u" netAlways500 ["d"] 3 emptyFS (by decide)).1 (by decide)
  exact ⟨h.1, h.2.1⟩

/-! ## Claim C7 -/

/-- C7 counterexample: the claim says the fetch step never writes to the
filesystem, but `_download_file` itself (lines 79-83 of the source)
creates the parent directory of the destination and writes the canonical file
on its successful attempt: starting from the empty filesystem, a
successful fetch leaves a file and a directory behind. -/
theorem c7_fetcher_writes_cex :
    ((_download_file "u" netOkPng ["d", "f.png"] 3 emptyFS).2.1).files =
      [(["d", "f.png"], [7])] ∧
    ((_download_file "u" netOkPng ["d", "f.png"] 3 emptyFS).2.1).dirs = [["d"]] := by
  decide

/-- C7 (corrected): `_download_file` leaves the filesystem unchanged only
when every attempt fails; on success it creates the parent
directories and writes the fetched body to the canonical destination path
itself — the orchestrator writes only the archive copy. -/
theorem c7_fetcher_filesystem_effect_amended (url : String) (net : Nat → GetResult)
    (dest : FilePath) (retries : Nat) (fs : FS) (h0 : 0 < retries) :
    ((∀ i, i < retries → isErr (attemptOutcome url (net i)) = true) →
      (_download_file url net dest retries fs).2.1 = fs) ∧
    (∀ j body, j < retries → (∀ i, i < j → isErr (attemptOutcome url (net i)) = true) →
      attemptOutcome url (net j) = .ok body →
      (_download_file url net dest retries fs).2.1 =
        (fs.mkdirAll dest.dropLast).writeFile dest body) := by
  constructor
  · intro hall
    rw [download_file_all_fail url net dest retries fs h0 hall]
  · intro j body hj hmin hok
    rw [download_file_first_success url net dest retries fs j body hj hmin hok]

/-- C7 witness: a failing fetch leaves the empty filesystem empty, and a
succeeding fetch produces exactly the mkdir-then-write effect. -/
theorem c7_fetcher_filesystem_effect_amended_witness :
    (_download_file "u" netAlways500 ["d"] 3 emptyFS).2.1 = emptyFS ∧
    (_download_file "u" netOkPng ["d", "f.png"] 3 emptyFS).2.1 =
      (emptyFS.mkdirAll ["d"]).writeFile ["d", "f.png"] [7] := by
  constructor
  · exact (c7_fetcher_filesystem_effect_amended "u" netAlways500 ["d"] 3 emptyFS
      (by decide)).1 (by decide)
  · exact (c7_fetcher_filesystem_effect_amended "u" netOkPng ["d", "f.png"] 3 emptyFS
      (by decide)).2 0 [7] (by decide) (by intro i hi; omega) (by decide)

/-! ## Claim C1 -/

/-- C1 counterexample: with two requested targets of which the first
exhausts its retries (HTTP 500 on every attempt), `download_cw3e_westwrf_snow`
raises the exception for the first target instead of recording the failure
and continuing: the run result is `raised`, the second target is never
attempted, and no outcome mapping is produced — refuting the claim that a
failure of a single target never aborts the run. -/
theorem c1_single_failure_aborts_run_cex :
    download_cw3e_westwrf_snow onetFailA [("s1", "a.png"), ("s2", "b.png")] ["r"] "TS" emptyFS =
      .raised "s1" (.httpStatus 500 (BASE_URL ++ "a.png")) ⟨[], [["r"], ["r", "s1"]]⟩ := by
  decide

/-- C1 (corrected): when the fetch for a target exhausts its retries,
`download_cw3e_westwrf_snow` does not record the failure and continue — it
raises an exception naming that target (line 168 of the source) and the
run aborts, so the remaining targets are not attempted. -/
theorem c1_failure_aborts_run_amended (net : String → Nat → GetResult) (root : FilePath)
    (ts : String) (fs : FS) (pre post : List (String × String)) (s f : String)
    (hpre : ∀ p ∈ pre, succeedsWithin (BASE_URL ++ p.2) (net (BASE_URL ++ p.2)) 3 = true)
    (hf : succeedsWithin (BASE_URL ++ f) (net (BASE_URL ++ f)) 3 = false) :
    (download_cw3e_westwrf_snow net (pre ++ (s, f) :: post) root ts fs).isOk = false ∧
    (download_cw3e_westwrf_snow net (pre ++ (s, f) :: post) root ts fs).siteOf = s := by
  obtain ⟨e, fs2, heq⟩ := processSites_abort net root ts 3 (by omega) pre s f post fs [] hpre hf
  unfold download_cw3e_westwrf_snow
  rw [heq]
  exact ⟨rfl, rfl⟩

/-- C1 witness: a three-target batch whose middle target always fails
aborts with the name of that target, even though the first target succeeds and
the third would. -/
theorem c1_failure_aborts_run_amended_witness :
    (download_cw3e_westwrf_snow onetFailA [("p", "b.png"), ("s1", "a.png"), ("s2", "b.png")]
      ["r"] "TS" emptyFS).isOk = false ∧
    (download_cw3e_westwrf_snow onetFailA [("p", "b.png"), ("s1", "a.png"), ("s2", "b.png")]
      ["r"] "TS" emptyFS).siteOf = "s1" :=
  c1_failure_aborts_run_amended onetFailA ["r"] "TS" emptyFS [("p", "b.png")]
    [("s2", "b.png")] "s1" "a.png" (by decide) (by decide)

/-! ## Claim C2 -/

/-- C2 counterexample: the claim says the mapping returned by the run
contains one outcome per requested target regardless of per-target
failure; but for a single requested target whose fetch fails, no mapping
is returned at all — the run raises. -/
theorem c2_no_report_on_failure_cex :
    download_cw3e_westwrf_snow onet500 [("x", "p.png")] ["root"] "TS" emptyFS =
      .raised "x" (.httpStatus 500 (BASE_URL ++ "p.png")) ⟨[], [["root"], ["root", "x"]]⟩ := by
  decide

/-- C2 (corrected): only when the run returns a mapping at all — which
happens exactly when every target succeeded — does that mapping contain
exactly one entry per requested target, in order, with no duplicates and
no omissions. -/
theorem c2_report_covers_targets_amended (net : String → Nat → GetResult)
    (sites : List (String × String)) (root : FilePath) (ts : String) (fs : FS)
    (h : (download_cw3e_westwrf_snow net sites root ts fs).isOk = true) :
    (download_cw3e_westwrf_snow net sites root ts fs).resultsOf.map Prod.fst =
      sites.map Prod.fst := by
  cases hr : download_cw3e_westwrf_snow net sites root ts fs with
  | raised s e fs2 => rw [hr] at h; simp [RunResult.isOk] at h
  | ok res fs2 =>
    have hinv := processSites_ok_inv net root ts 3 (by omega) sites fs [] res fs2 hr
    simp only [RunResult.resultsOf]
    rw [hinv.2]
    simp

/-- C2 witness: an all-succeeding two-target run returns a mapping whose
keys are exactly the two requested names in order. -/
theorem c2_report_covers_targets_amended_witness :
    (download_cw3e_westwrf_snow onetOk [("a", "x.png"), ("b", "y.png")] ["r"] "TS"
      emptyFS).resultsOf.map Prod.fst =
      ([("a", "x.png"), ("b", "y.png")] : List (String × String)).map Prod.fst :=
  c2_report_covers_targets_amended onetOk [("a", "x.png"), ("b", "y.png")] ["r"] "TS" emptyFS
    (by decide)

/-! ## Claim C5 -/

/-- C5 counterexample: for a target whose fetch attempts all fail, no
file is created — but the filesystem is NOT unchanged: the run creates
the site directory of the target (line 142 of the source) before fetching, so
starting from an empty filesystem the directory tree grows even though
the file set stays empty. -/
theorem c5_filesystem_changed_on_failure_cex :
    ((download_cw3e_westwrf_snow onet500 [("y", "q.png")] ["rt"] "TS" emptyFS).fsOf).files =
      [] ∧
    ((download_cw3e_westwrf_snow onet500 [("y", "q.png")] ["rt"] "TS" emptyFS).fsOf).dirs =
      [["rt"], ["rt", "y"]] := by
  decide

/-- C5 (corrected): for every target whose fetch attempts all fail, no
file is created at the canonical path, no file is created at the archive
path — indeed the set of files is completely unchanged and the fetch
error is raised — but the site directory of the target is created before the
fetch, so the directory tree may change. -/
theorem c5_no_files_on_failed_fetch_amended (net : String → Nat → GetResult) (root : FilePath)
    (ts : String) (retries : Nat) (site filename : String) (fs : FS) (h0 : 0 < retries)
    (h : ∀ i, i < retries →
      isErr (attemptOutcome (BASE_URL ++ filename) (net (BASE_URL ++ filename) i)) = true) :
    ((processSite net root ts retries site filename fs).2.1).files = fs.files ∧
    (∀ q, (processSite net root ts retries site filename fs).2.1.lookupFile q =
      fs.lookupFile q) ∧
    (processSite net root ts retries site filename fs).1 =
      .error (errOf (attemptOutcome (BASE_URL ++ filename)
        (net (BASE_URL ++ filename) (retries - 1)))) := by
  rw [processSite_fail net root ts retries site filename fs h0 h]
  exact ⟨rfl, fun q => rfl, rfl⟩

/-- C5 witness: a concrete always-500 target leaves the file set of the
empty filesystem empty (in particular neither the canonical nor the
archive file exists) and reports the final HTTP 500 error. -/
theorem c5_no_files_on_failed_fetch_amended_witness :
    ((processSite onet500 ["rt"] "TS" 3 "y" "q.png" emptyFS).2.1).files = [] ∧
    (processSite onet500 ["rt"] "TS" 3 "y" "q.png" emptyFS).2.1.lookupFile
      ["rt", "y", "q.png"] = none ∧
    (processSite onet500 ["rt"] "TS" 3 "y" "q.png" emptyFS).1 =
      .error (.httpStatus 500 (BASE_URL ++ "q.png")) := by
  have h := c5_no_files_on_failed_fetch_amended onet500 ["rt"] "TS" 3 "y" "q.png" emptyFS
    (by decide) (by decide)
  refine ⟨h.1, ?_, ?_⟩
  · rw [h.2.1 ["rt", "y", "q.png"]]; rfl
  · rw [h.2.2]; decide

/-! ## Claim C9 -/

/-- C9 (confirmed): `download_cw3e_westwrf_snow` returns normally if and
only if the fetch for every requested site succeeds (within the default 3
attempts); when it returns, the results dict maps exactly the requested
site names, in the caller-supplied order, to their canonical file paths
`root/site/filename`; and when it does not return normally, the raised
exception names a requested site whose fetch did not succeed. -/
theorem c9_run_return_contract (net : String → Nat → GetResult)
    (sites : List (String × String)) (root : FilePath) (ts : String) (fs : FS) :
    ((download_cw3e_westwrf_snow net sites root ts fs).isOk = true ↔
      ∀ p ∈ sites, succeedsWithin (BASE_URL ++ p.2) (net (BASE_URL ++ p.2)) 3 = true) ∧
    ((download_cw3e_westwrf_snow net sites root ts fs).isOk = true →
      (download_cw3e_westwrf_snow net sites root ts fs).resultsOf =
        sites.map (fun p => (p.1, root ++ [p.1, p.2]))) ∧
    ((download_cw3e_westwrf_snow net sites root ts fs).isOk = false →
      ∃ f, ((download_cw3e_westwrf_snow net sites root ts fs).siteOf, f) ∈ sites ∧
        succeedsWithin (BASE_URL ++ f) (net (BASE_URL ++ f)) 3 = false) := by
  refine ⟨⟨?_, ?_⟩, ?_, ?_⟩
  · intro h
    cases hr : download_cw3e_westwrf_snow net sites root ts fs with
    | raised s e fs2 => rw [hr] at h; simp [RunResult.isOk] at h
    | ok res fs2 => exact (processSites_ok_inv net root ts 3 (by omega) sites fs [] res fs2 hr).1
  · intro h
    obtain ⟨fs2, heq, _, _⟩ := processSites_ok_of_all_succeed net root ts 3 sites fs [] h
    unfold download_cw3e_westwrf_snow
    rw [heq]
    rfl
  · intro h
    cases hr : download_cw3e_westwrf_snow net sites root ts fs with
    | raised s e fs2 => rw [hr] at h; simp [RunResult.isOk] at h
    | ok res fs2 =>
      have hinv := processSites_ok_inv net root ts 3 (by omega) sites fs [] res fs2 hr
      simp only [RunResult.resultsOf]
      rw [hinv.2]
      simp
  · intro h
    cases hr : download_cw3e_westwrf_snow net sites root ts fs with
    | ok res fs2 => rw [hr] at h; simp [RunResult.isOk] at h
    | raised s e fs2 =>
      obtain ⟨f, hmem, hfail⟩ :=
        processSites_raised_inv net root ts 3 (by omega) sites fs [] s e fs2 hr
      exact ⟨f, by simpa [RunResult.siteOf] using hmem, hfail⟩

/-- C9 witness: a two-site all-succeeding run returns normally with the
two canonical paths in request order. -/
theorem c9_run_return_contract_witness :
    (download_cw3e_westwrf_snow onetOk [("a", "x.png"), ("b", "y.png")] ["r"] "TS"
      emptyFS).resultsOf = [("a", ["r", "a", "x.png"]), ("b", ["r", "b", "y.png"])] := by
  have h := (c9_run_return_contract onetOk [("a", "x.png"), ("b", "y.png")] ["r"] "TS"
    emptyFS).2.1 (by decide)
  simpa using h

/-! ## Filename-splitting lemmas for Claim C10 -/

theorem splitLastDot_none_iff : ∀ l : List Char, splitLastDot l = none ↔ '.' ∉ l := by
  intro l
  induction l with
  | nil => simp [splitLastDot]
  | cons c cs ih =>
    simp only [splitLastDot]
    cases hsp : splitLastDot cs with
    | some pe =>
      obtain ⟨b, e⟩ := pe
      have hmem : '.' ∈ cs := by
        by_contra hn
        rw [(ih.mpr hn : splitLastDot cs = none)] at hsp
        cases hsp
      simp [hmem]
    | none =>
      by_cases hc : c = '.'
      · subst hc
        simp
      · simp [hc, Ne.symm hc, ih.mp hsp]

theorem splitLastDot_some_spec : ∀ (l b e : List Char), splitLastDot l = some (b, e) →
    l = b ++ '.' :: e ∧ '.' ∉ e := by
  intro l
  induction l with
  | nil => intro b e h; cases h
  | cons c cs ih =>
    intro b e h
    simp only [splitLastDot] at h
    cases hsp : splitLastDot cs with
    | some pe =>
      obtain ⟨b1, e1⟩ := pe
      rw [hsp] at h
      have hpair : (c :: b1, e1) = (b, e) := Option.some.inj h
      have hb : c :: b1 = b := congrArg Prod.fst hpair
      have he : e1 = e := congrArg Prod.snd hpair
      subst hb
      subst he
      obtain ⟨hcs, hne⟩ := ih b1 e1 hsp
      exact ⟨by rw [hcs]; rfl, hne⟩
    | none =>
      rw [hsp] at h
      by_cases hc : c = '.'
      · rw [if_pos hc] at h
        have hpair : (([] : List Char), cs) = (b, e) := Option.some.inj h
        have hb : ([] : List Char) = b := congrArg Prod.fst hpair
        have he : cs = e := congrArg Prod.snd hpair
        subst hb
        subst he
        exact ⟨by rw [hc]; exact (List.nil_append _).symm, (splitLastDot_none_iff cs).mp hsp⟩
      · rw [if_neg hc] at h
        cases h

/-! ## Claim C10 -/

/-- C10 (confirmed): the run timestamp is a single value fixed before the
per-site loop (the parameter `ts`, computed once at line 131), so after a
normal run the archive file of every requested site exists at a path whose
filename carries that same timestamp, inserted between the source
base name of the source filename and its extension; and `timestamped_filename` indeed
splits at the last dot (with `f = base ++ "." ++ ext` and a dot-free
extension) or appends `_ts.png` when the filename has no dot. -/
theorem c10_archive_timestamp_naming (net : String → Nat → GetResult)
    (sites : List (String × String)) (root : FilePath) (ts : String) (fs : FS)
    (filename : String) :
    ((download_cw3e_westwrf_snow net sites root ts fs).isOk = true →
      ∀ p ∈ sites,
        ((download_cw3e_westwrf_snow net sites root ts fs).fsOf.lookupFile
          (root ++ [p.1, timestamped_filename p.2 ts])).isSome = true) ∧
    ('.' ∈ filename.toList →
      ∃ b e, splitLastDot filename.toList = some (b, e) ∧
        filename.toList = b ++ '.' :: e ∧ '.' ∉ e ∧
        timestamped_filename filename ts = String.mk b ++ "_" ++ ts ++ "." ++ String.mk e) ∧
    ('.' ∉ filename.toList →
      timestamped_filename filename ts = filename ++ "_" ++ ts ++ ".png") := by
  refine ⟨?_, ?_, ?_⟩
  · intro h p hp
    cases hr : download_cw3e_westwrf_snow net sites root ts fs with
    | raised s e fs2 => rw [hr] at h; simp [RunResult.isOk] at h
    | ok res fs2 =>
      have hall := (processSites_ok_inv net root ts 3 (by omega) sites fs [] res fs2 hr).1
      obtain ⟨fs2b, heq, hmono, harch⟩ :=
        processSites_ok_of_all_succeed net root ts 3 sites fs [] hall
      have hfs : fs2b = fs2 := by
        have hcomb := heq.symm.trans hr
        exact (RunResult.ok.inj hcomb).2
      simp only [RunResult.fsOf]
      rw [← hfs]
      exact harch p hp
  · intro hdot
    cases hsp : splitLastDot filename.toList with
    | none => exact absurd hdot (fun hd => by
        rw [splitLastDot_none_iff] at hsp
        exact hsp hd)
    | some pe =>
      obtain ⟨b, e⟩ := pe
      obtain ⟨hl, hne⟩ := splitLastDot_some_spec filename.toList b e hsp
      refine ⟨b, e, rfl, hl, hne, ?_⟩
      unfold timestamped_filename base_name extension
      rw [hsp]
  · intro h
    have hsp := (splitLastDot_none_iff filename.toList).mpr h
    unfold timestamped_filename base_name extension
    rw [hsp]
    cases filename with
    | mk l =>
      cases ts with
      | mk m =>
        show String.mk (l ++ "_".data ++ m ++ ".".data ++ "png".data) =
          String.mk (l ++ "_".data ++ m ++ ".png".data)
        rw [List.append_assoc (l ++ "_".data ++ m)]
        rfl

/-- C10 witness: a concrete successful run leaves the archive file
`x_TS.png` for site `a`, and a dot-free filename defaults to the `png`
extension. -/
theorem c10_archive_timestamp_naming_witness :
    ((download_cw3e_westwrf_snow onetOk [("a", "x.png")] ["r"] "TS" emptyFS).fsOf.lookupFile
      (["r"] ++ ["a", timestamped_filename "x.png" "TS"])).isSome = true ∧
    timestamped_filename "noext" "TS" = "noext" ++ "_" ++ "TS" ++ ".png" := by
  constructor
  · exact (c10_archive_timestamp_naming onetOk [("a", "x.png")] ["r"] "TS" emptyFS
      "x.png").1 (by decide) ("a", "x.png") (by decide)
  · exact (c10_archive_timestamp_naming onetOk [("a", "x.png")] ["r"] "TS" emptyFS
      "noext").2.2 (by decide)

/-! ## Dict-comprehension lemmas for Claim C8 -/

theorem sites_dict_step_keys (d : List (String × String)) (nm n : String) :
    n ∈ (sites_dict_step d nm).map Prod.fst ↔
      n ∈ d.map Prod.fst ∨
        (n = nm ∧ (SITES.find? (fun p => p.1 = nm)).isSome = true) := by
  unfold sites_dict_step
  cases hf : SITES.find? (fun p => p.1 = nm) with
  | none => simp
  | some pr =>
    dsimp only
    by_cases hany : d.any (fun q => q.1 = nm) = true
    · have hmem : nm ∈ d.map Prod.fst := by
        rw [List.any_eq_true] at hany
        obtain ⟨q, hq, hq1⟩ := hany
        rw [List.mem_map]
        exact ⟨q, hq, by simpa using hq1⟩
      have hkeys : ((d.map (fun q => if q.1 = nm then (nm, pr.2) else q)).map Prod.fst) =
          d.map Prod.fst := by
        rw [List.map_map]
        apply List.map_congr_left
        intro q hq
        by_cases hh : q.1 = nm <;> simp [hh]
      rw [if_pos hany, hkeys]
      constructor
      · exact fun hh => Or.inl hh
      · rintro (hh | ⟨rfl, hv⟩)
        · exact hh
        · exact hmem
    · rw [if_neg hany]
      simp

theorem sites_dict_keys (names : List String) :
    ∀ (d : List (String × String)) (n : String),
      n ∈ (names.foldl sites_dict_step d).map Prod.fst ↔
        n ∈ d.map Prod.fst ∨
          ∃ m ∈ names, n = m ∧ (SITES.find? (fun p => p.1 = m)).isSome = true := by
  induction names with
  | nil => intro d n; simp
  | cons nm rest ih =>
    intro d n
    simp only [List.foldl_cons]
    rw [ih, sites_dict_step_keys]
    simp only [List.mem_cons, exists_eq_or_imp]
    tauto

theorem sites_dict_nil_of_all_invalid :
    ∀ (names : List String) (d : List (String × String)),
      (∀ n ∈ names, SITES.find? (fun p => p.1 = n) = none) →
      names.foldl sites_dict_step d = d := by
  intro names
  induction names with
  | nil => intro d h; rfl
  | cons nm rest ih =>
    intro d h
    simp only [List.foldl_cons]
    rw [show sites_dict_step d nm = d from by
      unfold sites_dict_step
      rw [h nm (List.mem_cons_self _ _)]]
    exact ih d (fun n hn => h n (List.mem_cons_of_mem _ hn))

theorem sites_dict_empty_iff (names : List String) :
    sites_dict names = [] ↔ ∀ n ∈ names, SITES.find? (fun p => p.1 = n) = none := by
  constructor
  · intro h n hn
    cases hf : SITES.find? (fun p => p.1 = n) with
    | none => rfl
    | some pr =>
      have hmem : n ∈ (sites_dict names).map Prod.fst := by
        unfold sites_dict
        rw [sites_dict_keys]
        exact Or.inr ⟨n, hn, rfl, by rw [hf]; rfl⟩
      rw [h] at hmem
      cases hmem
  · intro h
    exact sites_dict_nil_of_all_invalid names [] h

/-! ## Claim C8 -/

/-- C8 (confirmed): in the site-selection stage of `main`, supplied names
absent from the `SITES` table are skipped (they never enter the filtered
dict, and `invalid_sites` reports precisely them) without failing the
run; the stage fails with a configuration error if and only if the
filtered dict is empty, which happens if and only if every supplied name
is invalid. -/
theorem c8_invalid_sites_skipped_and_config_error (names : List String) :
    (main_sites_stage names = .configError ↔ sites_dict names = []) ∧
    (sites_dict names = [] ↔ ∀ n ∈ names, SITES.find? (fun p => p.1 = n) = none) ∧
    (∀ n, SITES.find? (fun p => p.1 = n) = none →
      n ∉ (sites_dict names).map Prod.fst) ∧
    (invalid_sites names = names.filter (fun n => (SITES.find? (fun p => p.1 = n)).isNone)) ∧
    (sites_dict names ≠ [] → main_sites_stage names = .useSites (sites_dict names)) := by
  refine ⟨?_, sites_dict_empty_iff names, ?_, rfl, ?_⟩
  · unfold main_sites_stage
    by_cases he : (sites_dict names).isEmpty = true
    · rw [if_pos he]
      simp only [List.isEmpty_iff] at he
      simp [he]
    · rw [if_neg he]
      simp only [List.isEmpty_iff] at he
      simp [he]
  · intro n hinv
    unfold sites_dict
    rw [sites_dict_keys]
    rintro (hh | ⟨m, hm, rfl, hv⟩)
    · cases hh
    · rw [hinv] at hv
      cases hv
  · intro hne
    unfold main_sites_stage
    rw [if_neg (by simpa [List.isEmpty_iff] using hne)]

/-- C8 witness: the single invalid name `bogus` yields a configuration
error, while alongside the valid name `stevens` it is merely skipped: it
does not appear among the keys of the filtered dict. -/
theorem c8_invalid_sites_skipped_and_config_error_witness :
    main_sites_stage ["bogus"] = .configError ∧
    "bogus" ∉ (sites_dict ["stevens", "bogus"]).map Prod.fst := by
  constructor
  · exact (c8_invalid_sites_skipped_and_config_error ["bogus"]).1.mpr (by decide)
  · exact (c8_invalid_sites_skipped_and_config_error ["stevens", "bogus"]).2.2.1 "bogus"
      (by decide)

end ImageScraper
